import Mathlib

/-!
Verification of the `s3-open` workflow (src/main.rs): an S3 URL is parsed
into bucket/key/extension, the object is fetched into a scratch file, an
editor is run on it, and the content is written back only when the MD5
checksum changed.  Strings are embedded as `List Char`, byte buffers as
`List Nat` (each entry `< 256`).
-/

set_option maxRecDepth 100000

namespace S3Open

/-- Drops a leading pattern from a list: `dropPat p s = some r` iff
`s = p ++ r`.  This embeds the combination of `str::starts_with` and
`str::strip_prefix` used in `S3Info::from_str`. -/
def dropPat : List Char → List Char → Option (List Char)
  | [], s => some s
  | _ :: _, [] => none
  | p :: ps, c :: cs => if c = p then dropPat ps cs else none

/-- Embeds Rust `str::split(sep)` collected to a list: the result always has
at least one (possibly empty) segment. -/
def splitSep (sep : Char) : List Char → List (List Char)
  | [] => [[]]
  | c :: rest =>
    match splitSep sep rest with
    | [] => [[]]
    | h :: t => if c = sep then [] :: h :: t else (c :: h) :: t

/-- Embeds `Vec::join(sep)`: interleaves the separator between segments. -/
def joinSep (sep : Char) : List (List Char) → List Char
  | [] => []
  | [x] => x
  | x :: xs => x ++ sep :: joinSep sep xs

/-- Splits a list at the first occurrence of `sep`, returning the parts
before and after it (the separator removed); `none` when `sep` is absent. -/
def splitFirst (sep : Char) : List Char → Option (List Char × List Char)
  | [] => none
  | c :: rest =>
    if c = sep then some ([], rest)
    else
      match splitFirst sep rest with
      | none => none
      | some (a, b) => some (c :: a, b)

/-- Embeds Rust `str::rsplit_once(sep)`: splits at the LAST occurrence of
`sep`, returning `(before, after)`. -/
def rsplitOnce (sep : Char) (l : List Char) : Option (List Char × List Char) :=
  match splitFirst sep l.reverse with
  | none => none
  | some (a, b) => some (b.reverse, a.reverse)

/-- The recognized URI scheme, `"s3://"`, as a character list. -/
def s3Scheme : List Char := ['s', '3', ':', '/', '/']

/-- Parse errors of the address resolver.  `missingScheme` is the
`missing s3:// prefix` bail; `missingBucket` is the `missing bucket`
error attached to `parts.next()`. -/
inductive ParseError where
  | missingScheme
  | missingBucket
deriving DecidableEq, Repr

/-- The structured remote reference (struct `S3Info` in the source). -/
structure S3Info where
  bucket : List Char
  key : List Char
  extension : Option (List Char)
deriving DecidableEq, Repr

/-- Embeds `S3Info::from_str` (src/main.rs lines 25-41): require the
`s3://` scheme, split the remainder on `/`, take the first segment as the
bucket (failing with `missingBucket` if the split yields no segment at
all), rejoin the rest with `/` as the key, and take the substring after
the last `.` of the key as the extension. -/
def s3InfoFromStr (s : List Char) : Except ParseError S3Info :=
  match dropPat s3Scheme s with
  | none => .error .missingScheme
  | some rest =>
    match splitSep '/' rest with
    | [] => .error .missingBucket
    | bucket :: keySegs =>
      let key := joinSep '/' keySegs
      let extension := (rsplitOnce '.' key).map Prod.snd
      .ok { bucket := bucket, key := key, extension := extension }

/-- The suffix the scratch-file builder receives (src/main.rs lines 64-72):
`"." ++ ext` when an extension was parsed, no suffix otherwise. -/
def scratchSuffix (ext : Option (List Char)) : Option (List Char) :=
  ext.map (fun e => '.' :: e)

/-! ### MD5 (the `md5` crate's digest algorithm, RFC 1321)

Bytes are `Nat` values `< 256`; 32-bit words are `Nat` values reduced
modulo `2 ^ 32` wherever overflow matters. -/

/-- Reduce to a 32-bit word. -/
def w32 (n : Nat) : Nat := n % 4294967296

/-- 32-bit modular addition. -/
def wadd (a b : Nat) : Nat := w32 (a + b)

/-- 32-bit bitwise complement (on an already-reduced word). -/
def wnot (a : Nat) : Nat := Nat.xor (w32 a) 4294967295

/-- 32-bit left rotation by `s` places. -/
def rotl (x s : Nat) : Nat :=
  w32 (Nat.lor (Nat.shiftLeft (w32 x) s) (Nat.shiftRight (w32 x) (32 - s)))

/-- The per-step sine-derived constants `K` of MD5. -/
def md5K : List Nat :=
  [0xd76aa478, 0xe8c7b756, 0x242070db, 0xc1bdceee,
   0xf57c0faf, 0x4787c62a, 0xa8304613, 0xfd469501,
   0x698098d8, 0x8b44f7af, 0xffff5bb1, 0x895cd7be,
   0x6b901122, 0xfd987193, 0xa679438e, 0x49b40821,
   0xf61e2562, 0xc040b340, 0x265e5a51, 0xe9b6c7aa,
   0xd62f105d, 0x02441453, 0xd8a1e681, 0xe7d3fbc8,
   0x21e1cde6, 0xc33707d6, 0xf4d50d87, 0x455a14ed,
   0xa9e3e905, 0xfcefa3f8, 0x676f02d9, 0x8d2a4c8a,
   0xfffa3942, 0x8771f681, 0x6d9d6122, 0xfde5380c,
   0xa4beea44, 0x4bdecfa9, 0xf6bb4b60, 0xbebfbc70,
   0x289b7ec6, 0xeaa127fa, 0xd4ef3085, 0x04881d05,
   0xd9d4d039, 0xe6db99e5, 0x1fa27cf8, 0xc4ac5665,
   0xf4292244, 0x432aff97, 0xab9423a7, 0xfc93a039,
   0x655b59c3, 0x8f0ccc92, 0xffeff47d, 0x85845dd1,
   0x6fa87e4f, 0xfe2ce6e0, 0xa3014314, 0x4e0811a1,
   0xf7537e82, 0xbd3af235, 0x2ad7d2bb, 0xeb86d391]

/-- The per-step left-rotation amounts of MD5. -/
def md5S : List Nat :=
  [7, 12, 17, 22, 7, 12, 17, 22, 7, 12, 17, 22, 7, 12, 17, 22,
   5, 9, 14, 20, 5, 9, 14, 20, 5, 9, 14, 20, 5, 9, 14, 20,
   4, 11, 16, 23, 4, 11, 16, 23, 4, 11, 16, 23, 4, 11, 16, 23,
   6, 10, 15, 21, 6, 10, 15, 21, 6, 10, 15, 21, 6, 10, 15, 21]

/-- The `i`-th little-endian 32-bit word of a byte block. -/
def leWord (block : List Nat) (i : Nat) : Nat :=
  block.getD (4 * i) 0 + 256 * block.getD (4 * i + 1) 0 +
    65536 * block.getD (4 * i + 2) 0 + 16777216 * block.getD (4 * i + 3) 0

/-- One of the 64 MD5 operations on the running `(a, b, c, d)` state. -/
def md5Step (block : List Nat) (st : Nat × Nat × Nat × Nat) (i : Nat) :
    Nat × Nat × Nat × Nat :=
  let a := st.1
  let b := st.2.1
  let c := st.2.2.1
  let d := st.2.2.2
  let fg : Nat × Nat :=
    if i < 16 then (Nat.lor (Nat.land b c) (Nat.land (wnot b) d), i)
    else if i < 32 then
      (Nat.lor (Nat.land d b) (Nat.land (wnot d) c), (5 * i + 1) % 16)
    else if i < 48 then (Nat.xor (Nat.xor b c) d, (3 * i + 5) % 16)
    else (Nat.xor c (Nat.lor b (wnot d)), (7 * i) % 16)
  let f := wadd (wadd (wadd fg.1 a) (md5K.getD i 0)) (leWord block fg.2)
  (d, wadd b (rotl f (md5S.getD i 0)), b, c)

/-- Absorb one 64-byte block into the MD5 state. -/
def md5Block (st : Nat × Nat × Nat × Nat) (block : List Nat) :
    Nat × Nat × Nat × Nat :=
  let r := (List.range 64).foldl (md5Step block) st
  (wadd st.1 r.1, wadd st.2.1 r.2.1, wadd st.2.2.1 r.2.2.1,
    wadd st.2.2.2 r.2.2.2)

/-- MD5 padding: a `0x80` byte, zeros to 56 mod 64, then the bit length
as eight little-endian bytes. -/
def md5Pad (msg : List Nat) : List Nat :=
  let len := msg.length
  let zeros := (64 + 56 - (len + 1) % 64) % 64
  msg ++ 0x80 :: List.replicate zeros 0 ++
    (List.range 8).map (fun i => Nat.shiftRight (8 * len) (8 * i) % 256)

/-- Cut a byte list into successive 64-byte blocks (structural recursion
on a fuel argument, so that the kernel can evaluate it). -/
def toBlocksAux : Nat → List Nat → List (List Nat)
  | 0, _ => []
  | _, [] => []
  | fuel + 1, c :: rest =>
    (c :: rest).take 64 :: toBlocksAux fuel ((c :: rest).drop 64)

/-- Cut a byte list into successive 64-byte blocks.  The list's length
is enough fuel: every step consumes at least one element. -/
def toBlocks (l : List Nat) : List (List Nat) :=
  toBlocksAux l.length l

/-- The four little-endian bytes of a 32-bit word. -/
def wordBytes (w : Nat) : List Nat :=
  [w % 256, w / 256 % 256, w / 65536 % 256, w / 16777216 % 256]

/-- The full MD5 digest of a byte sequence, as its 16 digest bytes
(this is `md5::compute` in the source). -/
def md5Digest (msg : List Nat) : List Nat :=
  let st := (toBlocks (md5Pad msg)).foldl md5Block
    (0x67452301, 0xefcdab89, 0x98badcfe, 0x10325476)
  wordBytes st.1 ++ wordBytes st.2.1 ++ wordBytes st.2.2.1 ++
    wordBytes st.2.2.2

/-- The `md5::Context` streaming hasher, modelled denotationally by the
byte sequence consumed so far (the crate's context — internal state,
64-byte buffer and length count — is a function of exactly these bytes). -/
def Md5Context : Type := List Nat

/-- `md5::Context::new()`: nothing consumed yet. -/
def md5New : Md5Context := []

/-- `Context::consume`: absorb one chunk of bytes. -/
def md5Consume (ctx : Md5Context) (bytes : List Nat) : Md5Context :=
  List.append ctx bytes

/-- `Context::compute`: finalize the digest over everything consumed. -/
def md5Final (ctx : Md5Context) : List Nat := md5Digest ctx

/-! ### The workflow orchestrator (`main`, src/main.rs lines 44-120)

The effectful collaborators — the S3 client, the temporary file, the
editor child process — are modelled by an environment record fixing each
interaction's outcome; `runMain` replays `main`'s control flow over it
and records every `put_object` call it issues. -/

/-- The terminal error of a failed run, one constructor per `wrap_err` /
`bail!` site of `main` (and the `?` sites of the fetch-write loop). -/
inductive RunError where
  | invalidUrl
  | fetchFailed
  | tempFileFailed
  | streamReadFailed
  | spawnFailed
  | editorNonZeroExit
  | putFailed
deriving DecidableEq, Repr

/-- One recorded `put_object` call: target bucket and key, and the body
bytes it carries. -/
structure PutCall where
  bucket : List Char
  key : List Char
  body : List Nat
deriving DecidableEq, Repr

/-- Outcomes of all effectful collaborators of one run of `main`.
`chunks` are the byte chunks the fetch stream delivers, in delivery
order; `streamOk` is false when `try_next` errors after those chunks;
`editedBytes` is the scratch-file content read back after the editor
exits (the editor may rewrite the file arbitrarily). -/
structure Env where
  getObjectOk : Bool
  tempFileOk : Bool
  chunks : List (List Nat)
  streamOk : Bool
  spawnOk : Bool
  editorExitOk : Bool
  editedBytes : List Nat
  putOk : Bool

/-- Embeds `main` (src/main.rs lines 44-120): parse the URL, fetch the
object, create the scratch file, stream the chunks into it while feeding
the incremental hasher, run the editor, re-read the file, hash it again,
and call `put_object` with the re-read bytes only when the two checksums
differ.  Returns `main`'s result together with the list of `put_object`
calls made. -/
def runMain (object : List Char) (env : Env) :
    Except RunError Unit × List PutCall :=
  match s3InfoFromStr object with
  | .error _ => (.error .invalidUrl, [])
  | .ok info =>
    if !env.getObjectOk then (.error .fetchFailed, [])
    else if !env.tempFileOk then (.error .tempFileFailed, [])
    else
      let hasher := env.chunks.foldl md5Consume md5New
      if !env.streamOk then (.error .streamReadFailed, [])
      else
        let checksumBefore := md5Final hasher
        if !env.spawnOk then (.error .spawnFailed, [])
        else if !env.editorExitOk then (.error .editorNonZeroExit, [])
        else
          let newContents := env.editedBytes
          let checksumAfter := md5Digest newContents
          if checksumBefore = checksumAfter then (.ok (), [])
          else
            let call : PutCall :=
              { bucket := info.bucket, key := info.key, body := newContents }
            if env.putOk then (.ok (), [call])
            else (.error .putFailed, [call])

/-! ### Helper lemmas -/

theorem dropPat_eq_some {p s r : List Char} :
    dropPat p s = some r ↔ s = p ++ r := by
  induction p generalizing s with
  | nil => simp [dropPat]
  | cons c cs ih =>
    cases s with
    | nil => simp [dropPat]
    | cons x xs =>
      by_cases hx : x = c
      · subst hx
        simp [dropPat, ih]
      · simp [dropPat, hx, Ne.symm hx]

theorem dropPat_self_append (p r : List Char) : dropPat p (p ++ r) = some r :=
  dropPat_eq_some.mpr rfl

theorem splitSep_ne_nil (sep : Char) (l : List Char) :
    splitSep sep l ≠ [] := by
  cases l with
  | nil => simp [splitSep]
  | cons c rest =>
    simp only [splitSep]
    rcases h : splitSep sep rest with _ | ⟨a, t⟩
    · simp
    · by_cases hc : c = sep <;> simp [hc]

theorem splitSep_of_not_mem {sep : Char} {l : List Char} (h : sep ∉ l) :
    splitSep sep l = [l] := by
  induction l with
  | nil => rfl
  | cons c rest ih =>
    have hc : c ≠ sep := fun he => h (he ▸ List.mem_cons_self c rest)
    have hrest : sep ∉ rest := fun hm => h (List.mem_cons_of_mem c hm)
    simp [splitSep, ih hrest, hc]

theorem splitSep_append_sep {sep : Char} {xs : List Char} (ys : List Char)
    (h : sep ∉ xs) :
    splitSep sep (xs ++ sep :: ys) = xs :: splitSep sep ys := by
  induction xs with
  | nil =>
    simp only [List.nil_append, splitSep]
    rcases hy : splitSep sep ys with _ | ⟨a, t⟩
    · exact absurd hy (splitSep_ne_nil sep ys)
    · simp
  | cons c rest ih =>
    have hc : c ≠ sep := fun he => h (he ▸ List.mem_cons_self c rest)
    have hrest : sep ∉ rest := fun hm => h (List.mem_cons_of_mem c hm)
    simp only [List.cons_append, splitSep, List.append_eq, ih hrest,
      if_neg hc]

theorem splitFirst_of_not_mem {sep : Char} {l : List Char} (h : sep ∉ l) :
    splitFirst sep l = none := by
  induction l with
  | nil => rfl
  | cons c rest ih =>
    have hc : c ≠ sep := fun he => h (he ▸ List.mem_cons_self c rest)
    have hrest : sep ∉ rest := fun hm => h (List.mem_cons_of_mem c hm)
    simp [splitFirst, hc, ih hrest]

theorem splitFirst_append_sep {sep : Char} {a : List Char} (b : List Char)
    (h : sep ∉ a) :
    splitFirst sep (a ++ sep :: b) = some (a, b) := by
  induction a with
  | nil => simp [splitFirst]
  | cons c rest ih =>
    have hc : c ≠ sep := fun he => h (he ▸ List.mem_cons_self c rest)
    have hrest : sep ∉ rest := fun hm => h (List.mem_cons_of_mem c hm)
    simp [splitFirst, hc, ih hrest]

theorem rsplitOnce_of_not_mem {sep : Char} {l : List Char} (h : sep ∉ l) :
    rsplitOnce sep l = none := by
  have : sep ∉ l.reverse := fun hm => h (List.mem_reverse.mp hm)
  simp [rsplitOnce, splitFirst_of_not_mem this]

theorem rsplitOnce_last {sep : Char} (pre : List Char) {post : List Char}
    (h : sep ∉ post) :
    rsplitOnce sep (pre ++ sep :: post) = some (pre, post) := by
  have hrev : (pre ++ sep :: post).reverse
      = post.reverse ++ sep :: pre.reverse := by
    simp [List.reverse_append]
  have hmem : sep ∉ post.reverse := fun hm => h (List.mem_reverse.mp hm)
  simp [rsplitOnce, hrev, splitFirst_append_sep _ hmem]

/-- A successful parse computes the extension from the key by splitting
at the last `.`. -/
theorem parse_extension_spec {s : List Char} {info : S3Info}
    (h : s3InfoFromStr s = .ok info) :
    info.extension = (rsplitOnce '.' info.key).map Prod.snd := by
  unfold s3InfoFromStr at h
  split at h
  · cases h
  · split at h
    · cases h
    · simp only [Except.ok.injEq] at h
      subst h
      rfl

/-- Folding list append from the empty list concatenates the chunks. -/
theorem foldl_append_eq_join (chunks : List (List Nat)) (init : List Nat) :
    chunks.foldl (fun acc c => acc ++ c) init = init ++ chunks.flatten := by
  induction chunks generalizing init with
  | nil => simp
  | cons c rest ih => simp [ih, List.append_assoc]

/-- The streaming MD5 context, after consuming the chunks in order,
holds exactly their concatenation. -/
theorem md5Consume_foldl (chunks : List (List Nat)) :
    chunks.foldl md5Consume md5New = chunks.flatten := by
  have := foldl_append_eq_join chunks []
  simpa [md5Consume, md5New] using this

/-- Evaluating the resolver past the scheme check: the result is
determined by splitting the remainder on `/`. -/
theorem s3InfoFromStr_scheme_append (rest : List Char) :
    s3InfoFromStr (s3Scheme ++ rest)
      = match splitSep '/' rest with
        | [] => .error .missingBucket
        | bucket :: keySegs =>
          .ok { bucket := bucket, key := joinSep '/' keySegs,
                extension :=
                  (rsplitOnce '.' (joinSep '/' keySegs)).map Prod.snd } := by
  unfold s3InfoFromStr
  rw [dropPat_self_append]

/-! ### The claims -/

/-- C5: for every valid input of the form `s3://c/a/b.ext` whose
components contain no `/` (and whose `ext` contains no `.`), the
resolver returns bucket `c`, key `a/b.ext` and extension `ext`. -/
theorem claim5_resolver_valid_form (c a b ext : List Char)
    (hc : '/' ∉ c) (ha : '/' ∉ a) (hb : '/' ∉ b) (he : '/' ∉ ext)
    (hed : '.' ∉ ext) :
    s3InfoFromStr
        (s3Scheme ++ (c ++ ('/' :: (a ++ ('/' :: (b ++ ('.' :: ext)))))))
      = .ok { bucket := c, key := a ++ ('/' :: (b ++ ('.' :: ext))),
              extension := some ext } := by
  have hx : '/' ∉ b ++ ('.' :: ext) := by
    simp only [List.mem_append, List.mem_cons]
    push_neg
    exact ⟨hb, by decide, he⟩
  have h1 : splitSep '/' (c ++ ('/' :: (a ++ ('/' :: (b ++ ('.' :: ext))))))
      = c :: a :: [b ++ ('.' :: ext)] := by
    rw [splitSep_append_sep _ hc, splitSep_append_sep _ ha,
      splitSep_of_not_mem hx]
  have hkey : joinSep '/' [a, b ++ ('.' :: ext)]
      = a ++ ('/' :: (b ++ ('.' :: ext))) := rfl
  have hext : rsplitOnce '.' (a ++ ('/' :: (b ++ ('.' :: ext))))
      = some (a ++ ('/' :: b), ext) := by
    have hassoc : a ++ ('/' :: (b ++ ('.' :: ext)))
        = (a ++ ('/' :: b)) ++ ('.' :: ext) := by
      simp [List.append_assoc]
    rw [hassoc, rsplitOnce_last _ hed]
  rw [s3InfoFromStr_scheme_append]
  simp only [h1, hkey, hext]
  rfl

/-- C5 witness: `s3://bucket1/dir/file.txt` resolves to bucket
`bucket1`, key `dir/file.txt`, extension `txt`. -/
theorem claim5_witness :
    s3InfoFromStr
        (s3Scheme ++ (['b', 'u', 'c', 'k', 'e', 't', '1']
          ++ ('/' :: (['d', 'i', 'r']
            ++ ('/' :: (['f', 'i', 'l', 'e'] ++ ('.' :: ['t', 'x', 't'])))))))
      = .ok { bucket := ['b', 'u', 'c', 'k', 'e', 't', '1'],
              key := ['d', 'i', 'r']
                ++ ('/' :: (['f', 'i', 'l', 'e'] ++ ('.' :: ['t', 'x', 't']))),
              extension := some ['t', 'x', 't'] } :=
  claim5_resolver_valid_form ['b', 'u', 'c', 'k', 'e', 't', '1']
    ['d', 'i', 'r'] ['f', 'i', 'l', 'e'] ['t', 'x', 't']
    (by decide) (by decide) (by decide) (by decide) (by decide)

/-- C7: an input that does not begin with `s3://` always fails with the
missing-scheme error, and the workflow makes no further progress — it
terminates with the invalid-URL failure and performs no `put_object`
call, whatever the environment. -/
theorem claim7_missing_scheme (s : List Char)
    (h : ∀ r, s ≠ s3Scheme ++ r) :
    s3InfoFromStr s = .error .missingScheme ∧
      ∀ env, runMain s env = (.error .invalidUrl, []) := by
  have hd : dropPat s3Scheme s = none := by
    rcases hcase : dropPat s3Scheme s with _ | rest
    · rfl
    · exact absurd (dropPat_eq_some.mp hcase) (h rest)
  have hparse : s3InfoFromStr s = .error .missingScheme := by
    unfold s3InfoFromStr
    rw [hd]
  refine ⟨hparse, fun env => ?_⟩
  unfold runMain
  rw [hparse]

/-- C7 witness: `ftp://b1` (wrong scheme) fails with the missing-scheme
error. -/
theorem claim7_witness :
    s3InfoFromStr ['f', 't', 'p', ':', '/', '/', 'b', '1']
        = .error .missingScheme ∧
      ∀ env, runMain ['f', 't', 'p', ':', '/', '/', 'b', '1'] env
        = (.error .invalidUrl, []) :=
  claim7_missing_scheme _ (by
    intro r hr
    rw [show s3Scheme ++ r = 's' :: (['3', ':', '/', '/'] ++ r) from rfl]
      at hr
    exact absurd (List.head_eq_of_cons_eq hr) (by decide))

/-- C4 (code behaviour at the failing input): the spec requires
`s3:///key` — an empty first segment — to fail with the
missing-container error, but `from_str` accepts it: `parts.next()` on a
`split` iterator never yields `None`, so the `missing bucket` branch is
dead and the empty bucket is passed through. -/
theorem claim4_empty_container_accepted :
    s3InfoFromStr (s3Scheme ++ ['/', 'k', 'e', 'y'])
      = .ok { bucket := [], key := ['k', 'e', 'y'], extension := none } :=
  rfl

/-- C9: every input beginning with `s3://` parses successfully — the
missing-bucket branch is unreachable — and in particular `s3://` and
`s3:///key` parse with an empty bucket. -/
theorem claim9_parse_total :
    (∀ rest, ∃ info, s3InfoFromStr (s3Scheme ++ rest) = .ok info) ∧
      s3InfoFromStr s3Scheme
        = .ok { bucket := [], key := [], extension := none } ∧
      s3InfoFromStr (s3Scheme ++ ['/', 'k', 'e', 'y'])
        = .ok { bucket := [], key := ['k', 'e', 'y'], extension := none } := by
  refine ⟨fun rest => ?_, rfl, rfl⟩
  rcases hs : splitSep '/' rest with _ | ⟨bucket, keySegs⟩
  · exact absurd hs (splitSep_ne_nil _ _)
  · refine ⟨S3Info.mk bucket (joinSep '/' keySegs)
      ((rsplitOnce '.' (joinSep '/' keySegs)).map Prod.snd), ?_⟩
    rw [s3InfoFromStr_scheme_append, hs]

/-- C8: the extension of a parsed reference is the substring after the
last `.` anywhere in the key (not just its final path segment), and is
absent when the key has no `.`. -/
theorem claim8_extension_last_dot (s : List Char) (info : S3Info)
    (h : s3InfoFromStr s = .ok info) :
    ('.' ∉ info.key → info.extension = none) ∧
      ∀ pre post, info.key = pre ++ ('.' :: post) → '.' ∉ post →
        info.extension = some post := by
  have he := parse_extension_spec h
  constructor
  · intro hnd
    rw [he, rsplitOnce_of_not_mem hnd]
    rfl
  · intro pre post hk hnp
    rw [he, hk, rsplitOnce_last _ hnp]
    rfl

/-- C8 witness: the key `a.b/c` (from `s3://c/a.b/c`) yields extension
`b/c`, crossing the path separator. -/
theorem claim8_witness :
    S3Info.extension
        { bucket := ['c'], key := ['a', '.', 'b', '/', 'c'],
          extension := some ['b', '/', 'c'] }
      = some ['b', '/', 'c'] :=
  (claim8_extension_last_dot
      (s3Scheme ++ ['c', '/', 'a', '.', 'b', '/', 'c'])
      { bucket := ['c'], key := ['a', '.', 'b', '/', 'c'],
        extension := some ['b', '/', 'c'] } rfl).2
    ['a'] ['b', '/', 'c'] rfl (by decide)

/-- C10: a key ending in `.` parses with extension `some ""`, so the
scratch-file builder receives the bare-dot suffix `"."`. -/
theorem claim10_bare_dot_suffix (s : List Char) (info : S3Info)
    (pre : List Char) (h : s3InfoFromStr s = .ok info)
    (hk : info.key = pre ++ ['.']) :
    info.extension = some [] ∧ scratchSuffix info.extension = some ['.'] := by
  have he := parse_extension_spec h
  have hr : rsplitOnce '.' info.key = some (pre, []) := by
    rw [hk]
    exact rsplitOnce_last _ (by decide)
  rw [he, hr]
  exact ⟨rfl, rfl⟩

/-- C1: when every stage succeeds and the checksums differ, exactly one
`put_object` call is recorded, its body is exactly the bytes re-read
from the scratch file, and it targets the bucket and key of the parsed
reference — the same pair the `get_object` call was built from. -/
theorem claim1_writeback_exact (object : List Char) (env : Env)
    (info : S3Info) (hparse : s3InfoFromStr object = .ok info)
    (hget : env.getObjectOk = true) (htemp : env.tempFileOk = true)
    (hstream : env.streamOk = true) (hspawn : env.spawnOk = true)
    (hedit : env.editorExitOk = true)
    (hdiff : md5Final (env.chunks.foldl md5Consume md5New)
      ≠ md5Digest env.editedBytes) :
    (runMain object env).2
      = [{ bucket := info.bucket, key := info.key,
           body := env.editedBytes }] := by
  unfold runMain
  rw [hparse]
  cases hput : env.putOk <;>
    simp [hget, htemp, hstream, hspawn, hedit, hdiff, hput]

/-- Environment for the C1 witness: a one-chunk fetch of `"a"`, an edit
to `"b"`, every stage succeeding. -/
def envChanged : Env :=
  { getObjectOk := true, tempFileOk := true, chunks := [[97]],
    streamOk := true, spawnOk := true, editorExitOk := true,
    editedBytes := [98], putOk := true }

/-- C1 witness: fetching `"a"` from `s3://b/k` and editing it to `"b"`
produces exactly one `put_object` call with body `"b"` to bucket `b`,
key `k`. -/
theorem claim1_witness :
    (runMain (s3Scheme ++ ['b', '/', 'k']) envChanged).2
      = [{ bucket := ['b'], key := ['k'], body := [98] }] :=
  claim1_writeback_exact (s3Scheme ++ ['b', '/', 'k']) envChanged
    { bucket := ['b'], key := ['k'], extension := none }
    rfl rfl rfl rfl rfl rfl (by decide)

/-- C2: when every stage succeeds and the checksum of the re-read
scratch bytes equals the streaming checksum of the fetched chunks,
`main` returns success and records no `put_object` call. -/
theorem claim2_unchanged_skips (object : List Char) (env : Env)
    (info : S3Info) (hparse : s3InfoFromStr object = .ok info)
    (hget : env.getObjectOk = true) (htemp : env.tempFileOk = true)
    (hstream : env.streamOk = true) (hspawn : env.spawnOk = true)
    (hedit : env.editorExitOk = true)
    (heq : md5Final (env.chunks.foldl md5Consume md5New)
      = md5Digest env.editedBytes) :
    runMain object env = (.ok (), []) := by
  unfold runMain
  rw [hparse]
  simp [hget, htemp, hstream, hspawn, hedit, heq]

/-- Environment for the C2 witness: the editor leaves the fetched byte
`"a"` unchanged. -/
def envUnchanged : Env :=
  { getObjectOk := true, tempFileOk := true, chunks := [[97]],
    streamOk := true, spawnOk := true, editorExitOk := true,
    editedBytes := [97], putOk := true }

/-- C2 witness: an unchanged scratch file ends the run successfully with
zero `put_object` calls. -/
theorem claim2_witness :
    runMain (s3Scheme ++ ['b', '/', 'k']) envUnchanged = (.ok (), []) :=
  claim2_unchanged_skips (s3Scheme ++ ['b', '/', 'k']) envUnchanged
    { bucket := ['b'], key := ['k'], extension := none }
    rfl rfl rfl rfl rfl rfl rfl

/-- C3: when the editor cannot be spawned or exits non-zero, the run
ends in an error and no `put_object` call is ever recorded, whatever
the other stages did. -/
theorem claim3_editor_failure_no_put (object : List Char) (env : Env)
    (hfail : env.spawnOk = false ∨ env.editorExitOk = false) :
    (∃ e, (runMain object env).1 = .error e) ∧
      (runMain object env).2 = [] := by
  unfold runMain
  rcases hp : s3InfoFromStr object with e | info
  · exact ⟨⟨.invalidUrl, rfl⟩, rfl⟩
  · cases hget : env.getObjectOk with
    | false => exact ⟨⟨.fetchFailed, by simp [hget]⟩, by simp [hget]⟩
    | true =>
      cases htemp : env.tempFileOk with
      | false => exact ⟨⟨.tempFileFailed, by simp [hget, htemp]⟩,
          by simp [hget, htemp]⟩
      | true =>
        cases hstream : env.streamOk with
        | false => exact ⟨⟨.streamReadFailed, by simp [hget, htemp, hstream]⟩,
            by simp [hget, htemp, hstream]⟩
        | true =>
          cases hspawn : env.spawnOk with
          | false => exact ⟨⟨.spawnFailed,
              by simp [hget, htemp, hstream, hspawn]⟩,
              by simp [hget, htemp, hstream, hspawn]⟩
          | true =>
            cases hedit : env.editorExitOk with
            | false => exact ⟨⟨.editorNonZeroExit,
                by simp [hget, htemp, hstream, hspawn, hedit]⟩,
                by simp [hget, htemp, hstream, hspawn, hedit]⟩
            | true =>
              rcases hfail with hf | hf
              · rw [hspawn] at hf
                cases hf
              · rw [hedit] at hf
                cases hf

/-- Environment for the C3 witness: the fetch delivers `"a"` but the
editor exits with a non-zero status. -/
def envEditorFailed : Env :=
  { getObjectOk := true, tempFileOk := true, chunks := [[97]],
    streamOk := true, spawnOk := true, editorExitOk := false,
    editedBytes := [98], putOk := true }

/-- C3 witness: a failing editor session ends the run in an error with
zero `put_object` calls. -/
theorem claim3_witness :
    (∃ e, (runMain (s3Scheme ++ ['b', '/', 'k']) envEditorFailed).1
        = .error e) ∧
      (runMain (s3Scheme ++ ['b', '/', 'k']) envEditorFailed).2 = [] :=
  claim3_editor_failure_no_put (s3Scheme ++ ['b', '/', 'k'])
    envEditorFailed (Or.inr rfl)

/-- C6: the streaming before-checksum — the hasher fed each fetched
chunk in delivery order — equals the one-shot checksum of the chunks'
concatenation; hence if the final on-disk bytes equal that
concatenation, the before- and after-checksums agree. -/
theorem claim6_streaming_digest (chunks : List (List Nat))
    (finalBytes : List Nat) :
    md5Final (chunks.foldl md5Consume md5New) = md5Digest chunks.flatten ∧
      (finalBytes = chunks.flatten →
        md5Final (chunks.foldl md5Consume md5New)
          = md5Digest finalBytes) := by
  have h := md5Consume_foldl chunks
  refine ⟨by rw [h]; rfl, fun hf => ?_⟩
  rw [h, hf]
  rfl

/-- C6 witness: for the two chunks `[1]`, `[2]` and final bytes
`[1, 2]`, the streaming and one-shot checksums agree. -/
theorem claim6_witness :
    md5Final ([[1], [2]].foldl md5Consume md5New) = md5Digest [1, 2] :=
  (claim6_streaming_digest [[1], [2]] [1, 2]).2 rfl

/-- C10 witness: `s3://b/f.` parses with key `f.`, extension `some ""`,
and scratch suffix `"."`. -/
theorem claim10_witness :
    S3Info.extension
          { bucket := ['b'], key := ['f', '.'], extension := some [] }
        = some [] ∧
      scratchSuffix (S3Info.extension
          { bucket := ['b'], key := ['f', '.'], extension := some [] })
        = some ['.'] :=
  claim10_bare_dot_suffix (s3Scheme ++ ['b', '/', 'f', '.'])
    { bucket := ['b'], key := ['f', '.'], extension := some [] }
    ['f'] rfl rfl

end S3Open
